import Mathlib

/-! Verification of the pooltool multiplayer session layer.

A shallow embedding of `pooltool/multiplayer/server.py` and
`pooltool/multiplayer/client.py`, together with theorems settling the
specification's claims about room/game registry invariants, handler
behaviour, broadcast routing and client-side error surfacing.

Encoding of Python object aliasing:

In the Python server, each connected client owns exactly one mutable
`PlayerInfo` object, created on TCP accept with `player_id = client_id`
(a fresh UUID) and never replaced; rooms store *references* to these same
objects (`room.players.append(self.clients[client_id].player_info)`), so a
field assignment through any alias is visible through all of them.  Since
`player_id` is never reassigned, every live `PlayerInfo` object is uniquely
identified by its `player_id`.  We therefore model the object heap as an
association list `pinfos : List (String × PlayerInfo)` keyed by
`player_id`, and rooms hold lists of keys (`players : List String`).
Entries of `pinfos` are never deleted: in Python the object outlives
`del self.clients[client_id]` whenever a stale room entry still
references it, and can still be mutated afterwards (e.g. host
reassignment `room.players[0].is_host = True`).

Freshness of accepted ids (uuid4 collisions are assumed impossible, as the
Python code implicitly does) appears as a side condition of the `accept`
step of the reachability relation.

Wall-clock `timestamp` fields (`time.time()`) carry no protocol logic and
are not part of outbound message values.  Network sends are modelled as a
list of `(recipient, message)` pairs; `_send_message` silently skips
recipients no longer present in `clients`, which the model mirrors.  A
failed socket write triggers `_disconnect_client` for that one recipient;
registry-wise this equals a subsequent `drop` step of the reachability
relation, so it needs no separate modelling for registry invariants.
-/

namespace Pooltool

/-- Message type enum from `protocol.py` (closed set, as listed in the spec). -/
inductive MsgType where
  | CONNECT | DISCONNECT | PING | PONG
  | CREATE_ROOM | JOIN_ROOM | LEAVE_ROOM | ROOM_LIST | ROOM_UPDATE
  | PLAYER_READY | GAME_START
  | SHOT_AIM | SHOT_EXECUTE | SHOT_RESULT | TURN_CHANGE | GAME_OVER
  | CHAT_MESSAGE | ERROR
  deriving DecidableEq, Repr

/-- Python `PlayerInfo` (`protocol.py`, fields as given in the spec data model and as
used throughout `server.py`/`client.py`). -/
structure PlayerInfo where
  player_id : String
  name : String
  is_ready : Bool
  is_host : Bool
  deriving DecidableEq, Repr

/-- Server-side `RoomInfo`.  `players` holds references to the aliased
`PlayerInfo` objects, encoded by their `player_id` keys (see module
docstring). -/
structure RoomInfo where
  room_id : String
  room_name : String
  host_id : String
  players : List String
  max_players : Nat := 2
  game_type : String
  is_started : Bool := false
  deriving DecidableEq, Repr

/-- Modelled from the spec: `RoomInfo.is_full` lives in `protocol.py`, which is
not among the provided sources.  The spec defines room-full as
`len(players) >= max_players`. -/
def RoomInfo.isFull (r : RoomInfo) : Bool :=
  r.max_players ≤ r.players.length

/-- Python `GameState` (`protocol.py`, fields per the spec data model; the server only
ever constructs it with empty ball maps and `cue_state=None`).  Ball
positions and cue parameters are opaque to the session layer (it never
inspects them), so they are carried as strings. -/
structure GameState where
  room_id : String
  current_player_id : String
  turn_number : Nat
  shot_number : Nat
  ball_positions : List (String × String)
  ball_states : List (String × String)
  cue_state : Option String
  score : List (String × Nat)
  is_game_over : Bool := false
  winner_id : Option String := none
  deriving DecidableEq, Repr

/-- The `data` payload of an inbound `GameMessage`, restricted to the fields the
server ever reads (`.get(...)` accesses).  `rest` stands for any remaining
fields (e.g. `cue_state` of a shot message), which the server relays
verbatim without inspecting. -/
structure MsgData where
  name : Option String := none
  room_name : Option String := none
  game_type : Option String := none
  room_id : Option String := none
  is_ready : Option Bool := none
  message : Option String := none
  time : Option Nat := none
  error : Option String := none
  rest : String := ""
  deriving DecidableEq, Repr

/-- A wire message (`protocol.py`'s `GameMessage`, minus the wall-clock
timestamp, which carries no logic). -/
structure GameMessage where
  msg_type : MsgType
  sender_id : String
  data : MsgData
  deriving DecidableEq, Repr

/-! ## Association lists (Python `dict` with insertion order) -/

section AList
variable {β : Type _}

/-- Python `d.get(k)` / `k in d`. -/
def alookup (k : String) : List (String × β) → Option β
  | [] => none
  | (k', v) :: t => if k' = k then some v else alookup k t

/-- Python `d[k] = v`: update in place if present, else append (insertion order). -/
def aset (k : String) (v : β) : List (String × β) → List (String × β)
  | [] => [(k, v)]
  | (k', v') :: t => if k' = k then (k, v) :: t else (k', v') :: aset k v t

/-- Mutate the value at `k` through a field update, if present. -/
def aupdate (k : String) (f : β → β) : List (String × β) → List (String × β)
  | [] => []
  | (k', v) :: t => if k' = k then (k, f v) :: t else (k', v) :: aupdate k f t

/-- Python `del d[k]`. -/
def adel (k : String) : List (String × β) → List (String × β)
  | [] => []
  | (k', v) :: t => if k' = k then adel k t else (k', v) :: adel k t

end AList

/-! ## Server state and outbound messages -/

/-- The three registries of `MultiplayerServer` plus the `PlayerInfo` object
heap (see module docstring).  `clients` maps `client_id` to the session's
`room_id` pointer (`ConnectedClient.room_id`); the session's `player_info`
reference is the heap entry with the same key. -/
structure ServerState where
  pinfos : List (String × PlayerInfo)
  clients : List (String × Option String)
  rooms : List (String × RoomInfo)
  game_states : List (String × GameState)
  deriving DecidableEq, Repr

/-- Fresh server: empty registries. -/
def initState : ServerState := ⟨[], [], [], []⟩

/-- The `max_rooms` default used by `run_server` (constructor default 100). -/
def maxRooms : Nat := 100

/-- A `RoomInfo` snapshot as serialized by `attrs.asdict(room)`: the `players`
references are resolved to the `PlayerInfo` values they alias at snapshot
time. -/
structure RoomSnap where
  room_id : String
  room_name : String
  host_id : String
  players : List PlayerInfo
  max_players : Nat
  game_type : String
  is_started : Bool
  deriving DecidableEq, Repr

/-- Dereference a `PlayerInfo` heap key.  The default is never reached from a
reachable server state (every key stored in a room or session was inserted
into the heap first and heap entries are never deleted). -/
def resolvePinfo (s : ServerState) (pid : String) : PlayerInfo :=
  (alookup pid s.pinfos).getD ⟨pid, "", false, false⟩

/-- Python `attrs.asdict(room)` at the current heap. -/
def snapshot (s : ServerState) (room : RoomInfo) : RoomSnap :=
  ⟨room.room_id, room.room_name, room.host_id,
    room.players.map (resolvePinfo s),
    room.max_players, room.game_type, room.is_started⟩

/-- Outbound message payloads, one constructor per `data` shape the server
builds. -/
inductive OutPayload where
  | connectOk (player_id name : String)
  | pong (client_time : Nat)
  | error (text : String)
  | createRoomOk (room : RoomSnap)
  | joinRoomOk (room : RoomSnap)
  | leaveRoomOk
  | roomUpdate (room : RoomSnap)
  | roomList (rooms : List RoomSnap)
  | gameStart (room : RoomSnap) (game_state : GameState) (first_player_id : String)
  | echoAim (d : MsgData)
  | echoExecute (d : MsgData)
  | chat (name text : String)
  deriving DecidableEq, Repr

/-- An outbound wire message (timestamp omitted, see module docstring). -/
structure OutMsg where
  msg_type : MsgType
  sender_id : String
  payload : OutPayload
  deriving DecidableEq, Repr

/-- One delivery: (recipient client id, message). -/
abbrev Send := String × OutMsg

/-- Result of one handler invocation: the registry state when control returns
to `_handle_client`, the messages written out, and whether the handler
raised an uncaught Python exception (swallowed and logged by the
`except Exception` arm of the read loop). -/
structure HResult where
  state : ServerState
  sends : List Send
  raised : Bool := false
  deriving DecidableEq, Repr

/-- Python `MultiplayerServer._send_message`: silently skipped when the recipient is
no longer in `clients`. -/
def sendMessage (s : ServerState) (cid : String) (m : OutMsg) : List Send :=
  if (alookup cid s.clients).isSome then [(cid, m)] else []

/-- Python `MultiplayerServer._broadcast_to_room`: one `_send_message` per player in
`room.players` whose id differs from `exclude`. -/
def broadcastToRoom (s : ServerState) (rid : String) (m : OutMsg)
    (exclude : Option String) : List Send :=
  match alookup rid s.rooms with
  | none => []
  | some room =>
      (room.players.filter (fun p => exclude ≠ some p)).filterMap
        (fun p => if (alookup p s.clients).isSome then some (p, m) else none)

/-! ## Handlers (`server.py`) -/

/-- Registration of a freshly accepted connection (`_handle_client`, lines
115–132): a placeholder `PlayerInfo` with `player_id = client_id` and a
session with no room. -/
def acceptClient (s : ServerState) (cid : String) : ServerState :=
  { s with
    pinfos := aset cid ⟨cid, "Player_" ++ cid.take 8, false, false⟩ s.pinfos
    clients := aset cid none s.clients }

/-- Python `MultiplayerServer._leave_room`. -/
def leaveRoom (s : ServerState) (cid rid : String) : HResult :=
  match alookup rid s.rooms with
  | none => ⟨s, [], false⟩
  | some room =>
    -- room.players = [p for p in room.players if p.player_id != client_id]
    let room1 := { room with players := room.players.filter (fun p => p ≠ cid) }
    -- if client_id in self.clients: self.clients[client_id].room_id = None
    let s1 := { s with rooms := aset rid room1 s.rooms,
                       clients := aupdate cid (fun _ => none) s.clients }
    match room1.players with
    | [] =>
      -- empty room: delete it and its GameState
      ⟨{ s1 with rooms := adel rid s1.rooms, game_states := adel rid s1.game_states },
        [], false⟩
    | q :: _ =>
      -- if host left, promote the first remaining player
      let room2 := if room1.host_id = cid then { room1 with host_id := q } else room1
      let pinfos2 := if room1.host_id = cid
        then aupdate q (fun pi => { pi with is_host := true }) s1.pinfos
        else s1.pinfos
      let s2 := { s1 with rooms := aset rid room2 s1.rooms, pinfos := pinfos2 }
      let msg : OutMsg := ⟨.ROOM_UPDATE, "server", .roomUpdate (snapshot s2 room2)⟩
      ⟨s2, broadcastToRoom s2 rid msg none, false⟩

/-- Python `MultiplayerServer._disconnect_client` (writer teardown is I/O only). -/
def disconnectClient (s : ServerState) (cid : String) : HResult :=
  match alookup cid s.clients with
  | none => ⟨s, [], false⟩
  | some orid =>
    let r := match orid with
      | some rid => leaveRoom s cid rid
      | none => ⟨s, [], false⟩
    ⟨{ r.state with clients := adel cid r.state.clients }, r.sends, false⟩

/-- Python `MultiplayerServer._handle_connect`.  `self.clients[client_id]` raises
`KeyError` when the session is gone (possible after an in-band DISCONNECT,
since the read loop keeps consuming frames until end-of-stream). -/
def handleConnect (s : ServerState) (cid : String) (d : MsgData) : HResult :=
  match alookup cid s.clients with
  | none => ⟨s, [], true⟩
  | some _ =>
    let name := d.name.getD ("Player_" ++ cid.take 8)
    let s1 := { s with pinfos := aupdate cid (fun pi => { pi with name := name }) s.pinfos }
    ⟨s1, sendMessage s1 cid ⟨.CONNECT, "server", .connectOk cid name⟩, false⟩

/-- Python `MultiplayerServer._handle_ping`. -/
def handlePing (s : ServerState) (cid : String) (d : MsgData) : HResult :=
  ⟨s, sendMessage s cid ⟨.PONG, "server", .pong (d.time.getD 0)⟩, false⟩

/-- Python `MultiplayerServer._handle_create_room`.  `gen` is the value of
`str(uuid.uuid4())[:8]`; like the Python `dict` assignment, a colliding id
overwrites the existing room. -/
def handleCreateRoom (s : ServerState) (cid : String) (d : MsgData) (gen : String) : HResult :=
  if maxRooms ≤ s.rooms.length then
    ⟨s, sendMessage s cid
        ⟨.ERROR, "server", .error "Server is full. Cannot create more rooms."⟩, false⟩
  else
    match alookup cid s.clients, alookup cid s.pinfos with
    | some _, some _ =>
      let room_name := d.room_name.getD ("Room " ++ gen)
      let game_type := d.game_type.getD "8ball"
      -- player_info.is_host = True; player_info.is_ready = False  (through the alias)
      let pinfos1 := aupdate cid (fun pi => { pi with is_host := true, is_ready := false }) s.pinfos
      let room : RoomInfo :=
        { room_id := gen, room_name := room_name, host_id := cid,
          players := [cid], max_players := 2, game_type := game_type, is_started := false }
      let s1 := { s with pinfos := pinfos1,
                         rooms := aset gen room s.rooms,
                         clients := aset cid (some gen) s.clients }
      ⟨s1, sendMessage s1 cid ⟨.CREATE_ROOM, "server", .createRoomOk (snapshot s1 room)⟩, false⟩
    | _, _ => ⟨s, [], true⟩  -- KeyError: self.clients[client_id]

/-- Python `MultiplayerServer._handle_join_room`.  Python's `if not room_id` also
treats the empty string as missing. -/
def handleJoinRoom (s : ServerState) (cid : String) (d : MsgData) : HResult :=
  match d.room_id with
  | none => ⟨s, sendMessage s cid ⟨.ERROR, "server", .error "Room not found."⟩, false⟩
  | some rid =>
    if rid = "" then
      ⟨s, sendMessage s cid ⟨.ERROR, "server", .error "Room not found."⟩, false⟩
    else
      match alookup rid s.rooms with
      | none => ⟨s, sendMessage s cid ⟨.ERROR, "server", .error "Room not found."⟩, false⟩
      | some room =>
        if room.isFull then
          ⟨s, sendMessage s cid ⟨.ERROR, "server", .error "Room is full."⟩, false⟩
        else if room.is_started then
          ⟨s, sendMessage s cid ⟨.ERROR, "server", .error "Game already in progress."⟩, false⟩
        else
          match alookup cid s.clients, alookup cid s.pinfos with
          | some _, some _ =>
            -- player_info.is_host = False; player_info.is_ready = False; append
            let pinfos1 :=
              aupdate cid (fun pi => { pi with is_host := false, is_ready := false }) s.pinfos
            let room1 := { room with players := room.players ++ [cid] }
            let s1 := { s with pinfos := pinfos1,
                               rooms := aset rid room1 s.rooms,
                               clients := aset cid (some rid) s.clients }
            let snap := snapshot s1 room1
            ⟨s1, sendMessage s1 cid ⟨.JOIN_ROOM, "server", .joinRoomOk snap⟩ ++
                 broadcastToRoom s1 rid ⟨.ROOM_UPDATE, "server", .roomUpdate snap⟩ (some cid),
              false⟩
          | _, _ => ⟨s, [], true⟩  -- KeyError: self.clients[client_id]

/-- Python `MultiplayerServer._handle_leave_room`: leave (if in a room), then reply
`LEAVE_ROOM {success: true}`. -/
def handleLeaveRoom (s : ServerState) (cid : String) : HResult :=
  let r := match alookup cid s.clients with
    | some (some rid) => leaveRoom s cid rid
    | _ => ⟨s, [], false⟩
  ⟨r.state, r.sends ++ sendMessage r.state cid ⟨.LEAVE_ROOM, "server", .leaveRoomOk⟩, false⟩

/-- Python `MultiplayerServer._handle_room_list`: open, non-full rooms in registry
(insertion) order. -/
def handleRoomList (s : ServerState) (cid : String) : HResult :=
  let lst := ((s.rooms.map Prod.snd).filter
      (fun r => !r.is_started && !r.isFull)).map (snapshot s)
  ⟨s, sendMessage s cid ⟨.ROOM_LIST, "server", .roomList lst⟩, false⟩

/-- Python `MultiplayerServer._handle_player_ready`: flip `is_ready` on the first
matching player object in the room (a no-op when the sender is not on the
room's list), then broadcast ROOM_UPDATE to the whole room. -/
def handlePlayerReady (s : ServerState) (cid : String) (d : MsgData) : HResult :=
  match alookup cid s.clients with
  | none => ⟨s, [], false⟩
  | some none => ⟨s, [], false⟩
  | some (some rid) =>
    match alookup rid s.rooms with
    | none => ⟨s, [], false⟩
    | some room =>
      let r := d.is_ready.getD true
      let s1 := if cid ∈ room.players
        then { s with pinfos := aupdate cid (fun pi => { pi with is_ready := r }) s.pinfos }
        else s
      let msg : OutMsg := ⟨.ROOM_UPDATE, "server", .roomUpdate (snapshot s1 room)⟩
      ⟨s1, broadcastToRoom s1 room.room_id msg none, false⟩

/-- Python `MultiplayerServer._start_game`.  An empty player list would raise
`IndexError` on `room.players[0]` (unreachable from the handler, which
checks `len >= 2` first). -/
def startGame (s : ServerState) (rid : String) : HResult :=
  match alookup rid s.rooms with
  | none => ⟨s, [], false⟩
  | some room =>
    match room.players with
    | [] => ⟨{ s with rooms := aset rid { room with is_started := true } s.rooms }, [], true⟩
    | first :: _ =>
      let room1 := { room with is_started := true }
      let gs : GameState :=
        { room_id := room.room_id, current_player_id := first,
          turn_number := 0, shot_number := 0,
          ball_positions := [], ball_states := [], cue_state := none,
          score := room.players.foldl (fun m p => aset p 0 m) [],
          is_game_over := false, winner_id := none }
      let s1 := { s with rooms := aset rid room1 s.rooms,
                         game_states := aset room.room_id gs s.game_states }
      let msg : OutMsg :=
        ⟨.GAME_START, "server", .gameStart (snapshot s1 room1) gs first⟩
      ⟨s1, broadcastToRoom s1 rid msg none, false⟩

/-- Python `MultiplayerServer._handle_game_start_request`.  Each rejection branch
calls `self._send_error(...)`, a method that does not exist anywhere in the
class: the call raises `AttributeError` (modelled by `raised := true`), the
read loop logs it, and no ERROR reply reaches the requester. -/
def handleGameStartRequest (s : ServerState) (cid : String) : HResult :=
  match alookup cid s.clients with
  | none => ⟨s, [], false⟩
  | some none => ⟨s, [], false⟩
  | some (some rid) =>
    match alookup rid s.rooms with
    | none => ⟨s, [], false⟩
    | some room =>
      if ¬ room.players.any (fun p => p == cid && (resolvePinfo s p).is_host) then
        ⟨s, [], true⟩  -- self._send_error(...): AttributeError
      else if ¬ room.players.all (fun p => (resolvePinfo s p).is_ready) then
        ⟨s, [], true⟩  -- self._send_error(...): AttributeError
      else if room.players.length < 2 then
        ⟨s, [], true⟩  -- self._send_error(...): AttributeError
      else
        startGame s room.room_id

/-- Python `MultiplayerServer._handle_shot_aim`: only the current player's aim is
relayed; the broadcast excludes the sender. -/
def handleShotAim (s : ServerState) (cid : String) (d : MsgData) : HResult :=
  match alookup cid s.clients with
  | none => ⟨s, [], false⟩
  | some none => ⟨s, [], false⟩
  | some (some rid) =>
    match alookup rid s.rooms, alookup rid s.game_states with
    | some room, some gs =>
      if gs.current_player_id ≠ cid then ⟨s, [], false⟩
      else
        ⟨s, broadcastToRoom s room.room_id ⟨.SHOT_AIM, cid, .echoAim d⟩ (some cid), false⟩
    | _, _ => ⟨s, [], false⟩

/-- Python `MultiplayerServer._handle_shot_execute`: only the current player's shot is
relayed; the broadcast does not exclude anyone. -/
def handleShotExecute (s : ServerState) (cid : String) (d : MsgData) : HResult :=
  match alookup cid s.clients with
  | none => ⟨s, [], false⟩
  | some none => ⟨s, [], false⟩
  | some (some rid) =>
    match alookup rid s.rooms, alookup rid s.game_states with
    | some room, some gs =>
      if gs.current_player_id ≠ cid then ⟨s, [], false⟩
      else
        ⟨s, broadcastToRoom s room.room_id ⟨.SHOT_EXECUTE, cid, .echoExecute d⟩ none, false⟩
    | _, _ => ⟨s, [], false⟩

/-- Python `MultiplayerServer._handle_chat_message`. -/
def handleChatMessage (s : ServerState) (cid : String) (d : MsgData) : HResult :=
  match alookup cid s.clients with
  | none => ⟨s, [], false⟩
  | some none => ⟨s, [], false⟩
  | some (some rid) =>
    let msg : OutMsg :=
      ⟨.CHAT_MESSAGE, cid, .chat (resolvePinfo s cid).name (d.message.getD "")⟩
    ⟨s, broadcastToRoom s rid msg none, false⟩

/-- Python `MultiplayerServer._process_message`: dispatch by message type; types
without a registered handler are logged and dropped.  `gen` is the room id
`_handle_create_room` would draw from `uuid.uuid4()`. -/
def processMessage (s : ServerState) (cid : String) (m : GameMessage) (gen : String) : HResult :=
  match m.msg_type with
  | .CONNECT => handleConnect s cid m.data
  | .DISCONNECT => disconnectClient s cid
  | .PING => handlePing s cid m.data
  | .CREATE_ROOM => handleCreateRoom s cid m.data gen
  | .JOIN_ROOM => handleJoinRoom s cid m.data
  | .LEAVE_ROOM => handleLeaveRoom s cid
  | .ROOM_LIST => handleRoomList s cid
  | .PLAYER_READY => handlePlayerReady s cid m.data
  | .GAME_START => handleGameStartRequest s cid
  | .SHOT_AIM => handleShotAim s cid m.data
  | .SHOT_EXECUTE => handleShotExecute s cid m.data
  | .CHAT_MESSAGE => handleChatMessage s cid m.data
  | _ => ⟨s, [], false⟩

/-! ## The per-connection read loop (`_handle_client`, lines 134–153)

One inbound line is either a frame that `GameMessage.from_json` decodes, or a
malformed one on which it raises (`json.JSONDecodeError`; modelled from the
spec: `protocol.py` is not among the provided sources, and the spec states
that parsing a malformed line fails with an error).  Both that exception and
any exception escaping a handler are caught inside the `while` loop: the
frame is logged and dropped and the loop keeps reading.  End of the frame
list is `readline` returning empty (end of stream), after which the
`finally` block disconnects the client. -/

/-- One inbound line.  `valid` also carries the uuid draw a CREATE_ROOM
handler would consume. -/
inductive Frame where
  | malformed
  | valid (m : GameMessage) (gen : String)
  deriving DecidableEq, Repr

/-- Whether `GameMessage.from_json` succeeds on the line. -/
def Frame.isValid : Frame → Bool
  | .malformed => false
  | .valid _ _ => true

/-- The read loop of `_handle_client` over the connection's inbound lines,
returning the registry state and all messages sent (in order). -/
def clientLoop (cid : String) : ServerState → List Frame → ServerState × List Send
  | s, [] =>
    let r := disconnectClient s cid
    (r.state, r.sends)
  | s, .malformed :: rest => clientLoop cid s rest
  | s, .valid m gen :: rest =>
    let r := processMessage s cid m gen
    let res := clientLoop cid r.state rest
    (res.1, r.sends ++ res.2)

/-! ## Reachable registry states

Steps are exactly the ways `MultiplayerServer` mutates its registries: a new
connection is accepted (with a fresh uuid), an inbound message is processed,
or a connection drops (end-of-stream, reset, cancelled serve loop, or a
failed send mid-broadcast) and is cleaned up by `_disconnect_client`. -/
inductive Reachable : ServerState → Prop where
  | init : Reachable initState
  | accept (s : ServerState) (cid : String)
      (hc : alookup cid s.clients = none) (hp : alookup cid s.pinfos = none) :
      Reachable s → Reachable (acceptClient s cid)
  | msg (s : ServerState) (cid : String) (m : GameMessage) (gen : String) :
      Reachable s → Reachable (processMessage s cid m gen).state
  | drop (s : ServerState) (cid : String) :
      Reachable s → Reachable (disconnectClient s cid).state

/-- Registry well-formedness: the heap is keyed by `player_id`, and every
registered room is non-empty, has its host on its player list, and only
lists players whose `PlayerInfo` object exists. -/
def Inv (s : ServerState) : Prop :=
  (∀ pid pi, alookup pid s.pinfos = some pi → pi.player_id = pid) ∧
  (∀ rid room, alookup rid s.rooms = some room →
    room.players ≠ [] ∧ room.host_id ∈ room.players ∧
    ∀ pid, pid ∈ room.players → (alookup pid s.pinfos).isSome)

/-! ## Client bridge (`client.py`)

Only the pieces the claims touch: the inbound queue shared between the
network worker and the host thread, the `on_error` callback registration,
and the connection-refused path of `_connect_and_listen`. -/

/-- Python `MultiplayerClient`, restricted to connection state, the thread-safe
inbound queue, and whether an `on_error` callback is registered. -/
structure ClientState where
  player_id : String := ""
  player_name : String := ""
  is_connected : Bool := false
  current_room : Option RoomSnap := none
  game_state : Option GameState := none
  queue : List GameMessage := []
  has_on_error : Bool := false
  running : Bool := false
  deriving DecidableEq, Repr

/-- Python `MultiplayerClient.connect`: records the target, sets the running flag and
spawns the worker thread; it always returns `True` and never raises (the
worker catches `ConnectionRefusedError` itself, and `_run_network_loop`
catches everything else). -/
def clientConnect (c : ClientState) (name : String) : Bool × ClientState :=
  (true, { c with player_name := name, running := true })

/-- The message `_connect_and_listen` synthesizes when `open_connection`
raises `ConnectionRefusedError`. -/
def refusedErrorMsg : GameMessage :=
  ⟨.ERROR, "client", { error := some "Connection refused" }⟩

/-- The `except ConnectionRefusedError` arm of
`MultiplayerClient._connect_and_listen` plus its `finally` block: the
synthesized ERROR is put on the queue only when an `on_error` callback is
registered; then the worker clears the running/connected flags. -/
def connectRefused (c : ClientState) : ClientState :=
  let c1 := if c.has_on_error then { c with queue := c.queue ++ [refusedErrorMsg] } else c
  { c1 with running := false, is_connected := false }

/-- Events the bridge hands to the host application (callback invocations),
fired only from `update()` on the host thread. -/
inductive HostEvent where
  | errorEvt (text : String)
  | otherEvt (m : GameMessage)
  deriving DecidableEq, Repr

/-- Python `MultiplayerClient._handle_message`, restricted to the ERROR dispatch the
claims exercise (`_on_error` fires the callback only when registered);
every other message type is surfaced as its own event. -/
def clientHandleMessage (c : ClientState) (m : GameMessage) : ClientState × List HostEvent :=
  match m.msg_type with
  | .ERROR =>
    (c, if c.has_on_error then [.errorEvt ((m.data.error).getD "Unknown error")] else [])
  | _ => (c, [.otherEvt m])

/-- Python `MultiplayerClient.update`: drain the queue on the host thread, handling
messages in arrival order. -/
def clientUpdate (c : ClientState) : ClientState × List HostEvent :=
  let drained := c.queue.foldl
    (fun (acc : ClientState × List HostEvent) m =>
      let r := clientHandleMessage acc.1 m
      (r.1, acc.2 ++ r.2))
    ({ c with queue := [] }, [])
  drained

/-! ## Concrete traces (used by witnesses and counterexamples)

Registry states produced by running the handlers from a fresh server, and the
literal records they evaluate to. -/

/-- Client A accepted on a fresh server. -/
def trA : ServerState := acceptClient initState "A"

/-- A created room "r1" with default name and game type. -/
def trARoom : ServerState := (handleCreateRoom trA "A" {} "r1").state

/-- The solo room record of `trARoom`. -/
def roomA : RoomInfo :=
  { room_id := "r1", room_name := "Room r1", host_id := "A", players := ["A"],
    max_players := 2, game_type := "8ball", is_started := false }

/-- A toggled ready in its solo room. -/
def trAReady : ServerState := (handlePlayerReady trARoom "A" { is_ready := some true }).state

/-- A re-joined its own room "r1" (`_handle_join_room` never checks whether the
joiner is already a member). -/
def trASelfJoin : ServerState := (handleJoinRoom trARoom "A" { room_id := some "r1" }).state

/-- Clients A and B accepted. -/
def trAB : ServerState := acceptClient (acceptClient initState "A") "B"

/-- A created "Game Room" (8-ball) as room "r1", with B also connected. -/
def trCreated : ServerState :=
  (handleCreateRoom trAB "A"
    { room_name := some "Game Room", game_type := some "8ball" } "r1").state

/-- B joined room "r1". -/
def trJoined : ServerState := (handleJoinRoom trCreated "B" { room_id := some "r1" }).state

/-- Both A and B toggled ready. -/
def readyS : ServerState :=
  (handlePlayerReady (handlePlayerReady trJoined "A" { is_ready := some true }).state
    "B" { is_ready := some true }).state

/-- The "r1" room record while both are ready (readiness lives in the heap). -/
def readyRoom : RoomInfo :=
  { room_id := "r1", room_name := "Game Room", host_id := "A", players := ["A", "B"],
    max_players := 2, game_type := "8ball", is_started := false }

/-- Registry state after A's successful GAME_START in `readyS`. -/
def startedS : ServerState := (handleGameStartRequest readyS "A").state

/-- The started "r1" room record. -/
def gameRoom : RoomInfo :=
  { room_id := "r1", room_name := "Game Room", host_id := "A", players := ["A", "B"],
    max_players := 2, game_type := "8ball", is_started := true }

/-- The GameState created for `startedS`. -/
def gameGS : GameState :=
  { room_id := "r1", current_player_id := "A", turn_number := 0, shot_number := 0,
    ball_positions := [], ball_states := [], cue_state := none,
    score := [("A", 0), ("B", 0)], is_game_over := false, winner_id := none }

/-- The room snapshot broadcast with GAME_START in `startedS`. -/
def gameSnap : RoomSnap :=
  { room_id := "r1", room_name := "Game Room", host_id := "A",
    players := [⟨"A", "Player_A", true, true⟩, ⟨"B", "Player_B", true, false⟩],
    max_players := 2, game_type := "8ball", is_started := true }

/-- An opaque shot payload as relayed verbatim. -/
def shotD : MsgData := { rest := "cue_state-payload" }

/-- B also created its own room "r2" while A holds "r1". -/
def trTwoRooms : ServerState :=
  (handleCreateRoom (handleCreateRoom trAB "A" {} "r1").state "B" {} "r2").state

/-- The "r2" room record of `trTwoRooms`. -/
def roomS10 : RoomInfo :=
  { room_id := "r2", room_name := "Room r2", host_id := "B", players := ["B"],
    max_players := 2, game_type := "8ball", is_started := false }

/-- A's heap record in `trTwoRooms` (host of "r1"). -/
def piA10 : PlayerInfo := ⟨"A", "Player_A", false, true⟩

/-- The snapshot broadcast after A leaves `trJoined` and B is promoted to
host. -/
def c6snap : RoomSnap :=
  { room_id := "r1", room_name := "Game Room", host_id := "B",
    players := [⟨"B", "Player_B", false, true⟩],
    max_players := 2, game_type := "8ball", is_started := false }

/-- The ROOM_UPDATE carrying `c6snap`. -/
def c6msg : OutMsg := ⟨.ROOM_UPDATE, "server", .roomUpdate c6snap⟩

/-- A connecting bridge with no `on_error` callback registered. -/
def c9noCallback : ClientState := { has_on_error := false, running := true }

/-- A connecting bridge with an `on_error` callback registered. -/
def c9withCallback : ClientState := { has_on_error := true, running := true }

/-! ## Association-list lemmas -/

@[simp] theorem alookup_nil {β : Type _} (k : String) : alookup k ([] : List (String × β)) = none := rfl

theorem alookup_aset_self {β : Type _} (k : String) (v : β) (l : List (String × β)) :
    alookup k (aset k v l) = some v := by
  induction l with
  | nil => simp [aset, alookup]
  | cons h t ih =>
    obtain ⟨k', v'⟩ := h
    by_cases hk : k' = k <;> simp [aset, alookup, hk, ih]

theorem alookup_aset_ne {β : Type _} (k k' : String) (v : β) (l : List (String × β)) (h : k' ≠ k) :
    alookup k' (aset k v l) = alookup k' l := by
  induction l with
  | nil => simp [aset, alookup, h.symm]
  | cons hd t ih =>
    obtain ⟨k'', v''⟩ := hd
    by_cases hk : k'' = k
    · subst hk
      simp [aset, alookup, h.symm]
    · by_cases hk2 : k'' = k'
      · simp [aset, alookup, hk, hk2, h]
      · simp [aset, alookup, hk, hk2, ih]

theorem alookup_aupdate_self {β : Type _} (k : String) (f : β → β) (l : List (String × β)) :
    alookup k (aupdate k f l) = (alookup k l).map f := by
  induction l with
  | nil => simp [aupdate]
  | cons hd t ih =>
    obtain ⟨k', v⟩ := hd
    by_cases hk : k' = k <;> simp [aupdate, alookup, hk, ih]

theorem alookup_aupdate_ne {β : Type _} (k k' : String) (f : β → β) (l : List (String × β)) (h : k' ≠ k) :
    alookup k' (aupdate k f l) = alookup k' l := by
  induction l with
  | nil => simp [aupdate]
  | cons hd t ih =>
    obtain ⟨k'', v⟩ := hd
    by_cases hk : k'' = k
    · subst hk
      simp [aupdate, alookup, h.symm]
    · by_cases hk2 : k'' = k'
      · simp [aupdate, alookup, hk, hk2, h]
      · simp [aupdate, alookup, hk, hk2, ih]

theorem alookup_adel_self {β : Type _} (k : String) (l : List (String × β)) :
    alookup k (adel k l) = none := by
  induction l with
  | nil => simp [adel]
  | cons hd t ih =>
    obtain ⟨k', v⟩ := hd
    by_cases hk : k' = k <;> simp [adel, alookup, hk, ih]

theorem alookup_adel_ne {β : Type _} (k k' : String) (l : List (String × β)) (h : k' ≠ k) :
    alookup k' (adel k l) = alookup k' l := by
  induction l with
  | nil => simp [adel]
  | cons hd t ih =>
    obtain ⟨k'', v⟩ := hd
    by_cases hk : k'' = k
    · subst hk
      simp [adel, alookup, h.symm, ih]
    · by_cases hk2 : k'' = k'
      · simp [adel, alookup, hk, hk2, h]
      · simp [adel, alookup, hk, hk2, ih]

/-- Writing back the value already stored at `k` is a structural no-op
(`aset` replaces the entry with an identical one). -/
theorem aset_of_alookup_eq {β : Type _} (k : String) (v : β) (l : List (String × β))
    (h : alookup k l = some v) : aset k v l = l := by
  induction l with
  | nil => simp [alookup] at h
  | cons hd t ih =>
    obtain ⟨k', v'⟩ := hd
    by_cases hk : k' = k
    · subst hk
      simp [alookup] at h
      simp [aset, h]
    · simp [alookup, hk] at h
      simp [aset, hk, ih h]

/-- An `aupdate` with an idempotent field update is idempotent. -/
theorem aupdate_aupdate {β : Type _} (k : String) (f : β → β) (l : List (String × β))
    (hf : ∀ v, f (f v) = f v) : aupdate k f (aupdate k f l) = aupdate k f l := by
  induction l with
  | nil => simp [aupdate]
  | cons hd t ih =>
    obtain ⟨k', v⟩ := hd
    by_cases hk : k' = k
    · simp [aupdate, hk, hf]
    · simp [aupdate, hk, ih]


/-! ## Helper lemmas -/

theorem isSome_alookup_aset {β : Type _} (k pid : String) (v : β) (l : List (String × β))
    (h : (alookup pid l).isSome) : (alookup pid (aset k v l)).isSome := by
  by_cases hp : pid = k
  · subst hp; rw [alookup_aset_self]; rfl
  · rwa [alookup_aset_ne _ _ _ _ hp]

theorem isSome_alookup_aupdate {β : Type _} (k pid : String) (f : β → β)
    (l : List (String × β)) :
    (alookup pid (aupdate k f l)).isSome = (alookup pid l).isSome := by
  by_cases hp : pid = k
  · subst hp; rw [alookup_aupdate_self]; cases alookup pid l <;> rfl
  · rw [alookup_aupdate_ne _ _ _ _ hp]

/-- Recipient characterization of `_broadcast_to_room`. -/
theorem mem_broadcastToRoom (s : ServerState) (rid : String) (m : OutMsg)
    (exclude : Option String) (p : String) (m' : OutMsg) :
    (p, m') ∈ broadcastToRoom s rid m exclude ↔
      m' = m ∧ ∃ room, alookup rid s.rooms = some room ∧ p ∈ room.players ∧
        exclude ≠ some p ∧ (alookup p s.clients).isSome := by
  unfold broadcastToRoom
  cases hr : alookup rid s.rooms with
  | none => simp
  | some room =>
    simp only [List.mem_filterMap, List.mem_filter]
    constructor
    · rintro ⟨q, ⟨hq, hex⟩, hif⟩
      by_cases hs : (alookup q s.clients).isSome
      · simp [hs] at hif
        obtain ⟨hqp, hm⟩ := hif
        subst hqp
        exact ⟨hm.symm, room, rfl, hq, by simpa using hex, hs⟩
      · simp [hs] at hif
    · rintro ⟨hm, room', hroom', hp, hex, hs⟩
      injection hroom' with hroom'
      subst hroom'
      exact ⟨p, ⟨hp, by simpa using hex⟩, by simp [hs, hm]⟩

/-- Every entry produced by folding `score[p] = 0` over the player list maps to
`0`. -/
theorem alookup_score_fold (l : List String) (acc : List (String × Nat)) (p : String)
    (hp : p ∈ l ∨ alookup p acc = some 0) :
    alookup p (l.foldl (fun m q => aset q 0 m) acc) = some 0 := by
  induction l generalizing acc with
  | nil =>
    rcases hp with h | h
    · simp at h
    · simpa using h
  | cons q t ih =>
    simp only [List.foldl_cons]
    apply ih
    rcases hp with h | h
    · rcases List.mem_cons.mp h with hq | ht
      · subst hq
        exact Or.inr (alookup_aset_self _ _ _)
      · exact Or.inl ht
    · by_cases hq : p = q
      · subst hq
        exact Or.inr (alookup_aset_self _ _ _)
      · exact Or.inr (by rwa [alookup_aset_ne _ _ _ _ hq])

/-! ## Preservation of registry well-formedness -/

theorem inv_initState : Inv initState := by
  constructor
  · intro pid pi h
    simp [initState] at h
  · intro rid room h
    simp [initState] at h

theorem inv_acceptClient (s : ServerState) (cid : String) (h : Inv s) :
    Inv (acceptClient s cid) := by
  obtain ⟨hpi, hrooms⟩ := h
  constructor
  · intro pid pi hl
    simp only [acceptClient] at hl
    by_cases hp : pid = cid
    · subst hp
      rw [alookup_aset_self] at hl
      cases hl
      rfl
    · rw [alookup_aset_ne _ _ _ _ hp] at hl
      exact hpi _ _ hl
  · intro rid room hl
    obtain ⟨h1, h2, h3⟩ := hrooms rid room hl
    exact ⟨h1, h2, fun pid hpid => isSome_alookup_aset _ _ _ _ (h3 pid hpid)⟩

/-- Field updates through an alias preserve `player_id`, hence heap
key-correctness. -/
theorem inv_pinfos_aupdate (s : ServerState) (k : String) (f : PlayerInfo → PlayerInfo)
    (hf : ∀ pi, (f pi).player_id = pi.player_id) (h : Inv s) :
    Inv { s with pinfos := aupdate k f s.pinfos } := by
  obtain ⟨hpi, hrooms⟩ := h
  constructor
  · intro pid pi hl
    simp only at hl
    by_cases hp : pid = k
    · subst hp
      rw [alookup_aupdate_self] at hl
      cases ho : alookup pid s.pinfos with
      | none => rw [ho] at hl; cases hl
      | some pi0 =>
        rw [ho] at hl
        cases hl
        rw [hf]
        exact hpi _ _ ho
    · rw [alookup_aupdate_ne _ _ _ _ hp] at hl
      exact hpi _ _ hl
  · intro rid room hl
    obtain ⟨h1, h2, h3⟩ := hrooms rid room hl
    refine ⟨h1, h2, fun pid hpid => ?_⟩
    rw [isSome_alookup_aupdate]
    exact h3 pid hpid

theorem aset_aset {β : Type _} (k : String) (v w : β) (l : List (String × β)) :
    aset k v (aset k w l) = aset k v l := by
  induction l with
  | nil => simp [aset]
  | cons hd t ih =>
    obtain ⟨k', v'⟩ := hd
    by_cases hk : k' = k <;> simp [aset, hk, ih]

/-! ### Branch equations for the stateful handlers -/

theorem leaveRoom_not_found (s : ServerState) (cid rid : String)
    (hr : alookup rid s.rooms = none) : leaveRoom s cid rid = ⟨s, [], false⟩ := by
  unfold leaveRoom
  rw [hr]

/-- Branch of `_leave_room` when the departing player was the last one: room and
GameState are deleted, nothing is sent. -/
theorem leaveRoom_empty (s : ServerState) (cid rid : String) (room : RoomInfo)
    (hr : alookup rid s.rooms = some room)
    (hrem : room.players.filter (fun p => p ≠ cid) = []) :
    leaveRoom s cid rid =
      ⟨{ s with rooms := adel rid (aset rid { room with players := [] } s.rooms),
                clients := aupdate cid (fun _ => none) s.clients,
                game_states := adel rid s.game_states }, [], false⟩ := by
  unfold leaveRoom
  rw [hr]
  dsimp only
  rw [hrem]

/-- Branch of `_leave_room` when the departing player was host and others remain. -/
theorem leaveRoom_host (s : ServerState) (cid rid : String) (room : RoomInfo)
    (q : String) (rest : List String)
    (hr : alookup rid s.rooms = some room)
    (hrem : room.players.filter (fun p => p ≠ cid) = q :: rest)
    (hh : room.host_id = cid) :
    leaveRoom s cid rid =
      (let room2 : RoomInfo := { room with players := q :: rest, host_id := q }
       let s2 : ServerState :=
         { s with rooms := aset rid room2 s.rooms,
                  clients := aupdate cid (fun _ => none) s.clients,
                  pinfos := aupdate q (fun pi => { pi with is_host := true }) s.pinfos }
       ⟨s2, broadcastToRoom s2 rid
              ⟨.ROOM_UPDATE, "server", .roomUpdate (snapshot s2 room2)⟩ none, false⟩) := by
  unfold leaveRoom
  rw [hr]
  dsimp only
  rw [hrem]
  dsimp only
  rw [if_pos hh, if_pos hh, aset_aset]

/-- Branch of `_leave_room` when the departing player was not host and others remain. -/
theorem leaveRoom_nothost (s : ServerState) (cid rid : String) (room : RoomInfo)
    (q : String) (rest : List String)
    (hr : alookup rid s.rooms = some room)
    (hrem : room.players.filter (fun p => p ≠ cid) = q :: rest)
    (hh : ¬ room.host_id = cid) :
    leaveRoom s cid rid =
      (let room2 : RoomInfo := { room with players := q :: rest }
       let s2 : ServerState :=
         { s with rooms := aset rid room2 s.rooms,
                  clients := aupdate cid (fun _ => none) s.clients }
       ⟨s2, broadcastToRoom s2 rid
              ⟨.ROOM_UPDATE, "server", .roomUpdate (snapshot s2 room2)⟩ none, false⟩) := by
  unfold leaveRoom
  rw [hr]
  dsimp only
  rw [hrem]
  dsimp only
  rw [if_neg hh, if_neg hh, aset_aset]

/-- Branch of `_handle_create_room` below the room cap with a live session. -/
theorem handleCreateRoom_ok (s : ServerState) (cid : String) (d : MsgData) (gen : String)
    (orid : Option String) (pi0 : PlayerInfo)
    (hfull : ¬ maxRooms ≤ s.rooms.length)
    (hc : alookup cid s.clients = some orid)
    (hp : alookup cid s.pinfos = some pi0) :
    handleCreateRoom s cid d gen =
      (let room : RoomInfo :=
         { room_id := gen, room_name := d.room_name.getD ("Room " ++ gen),
           host_id := cid, players := [cid], max_players := 2,
           game_type := d.game_type.getD "8ball", is_started := false }
       let s1 : ServerState :=
         { s with
           pinfos := aupdate cid (fun pi => { pi with is_host := true, is_ready := false })
             s.pinfos,
           rooms := aset gen room s.rooms,
           clients := aset cid (some gen) s.clients }
       ⟨s1, sendMessage s1 cid ⟨.CREATE_ROOM, "server", .createRoomOk (snapshot s1 room)⟩,
         false⟩) := by
  unfold handleCreateRoom
  rw [if_neg hfull, hc, hp]

/-- Branch of `_handle_join_room` on an existing, open, non-full room with a live
session: the joiner is appended and both replies go out. -/
theorem handleJoinRoom_ok (s : ServerState) (cid : String) (d : MsgData) (rid : String)
    (room : RoomInfo) (orid : Option String) (pi0 : PlayerInfo)
    (hd : d.room_id = some rid) (hne : rid ≠ "")
    (hr : alookup rid s.rooms = some room)
    (hfull : room.isFull = false) (hstart : room.is_started = false)
    (hc : alookup cid s.clients = some orid)
    (hp : alookup cid s.pinfos = some pi0) :
    handleJoinRoom s cid d =
      (let room1 : RoomInfo := { room with players := room.players ++ [cid] }
       let s1 : ServerState :=
         { s with
           pinfos := aupdate cid (fun pi => { pi with is_host := false, is_ready := false })
             s.pinfos,
           rooms := aset rid room1 s.rooms,
           clients := aset cid (some rid) s.clients }
       let snap := snapshot s1 room1
       ⟨s1, sendMessage s1 cid ⟨.JOIN_ROOM, "server", .joinRoomOk snap⟩ ++
            broadcastToRoom s1 rid ⟨.ROOM_UPDATE, "server", .roomUpdate snap⟩ (some cid),
         false⟩) := by
  unfold handleJoinRoom
  rw [hd]
  dsimp only
  rw [if_neg hne, hr]
  dsimp only
  rw [hfull, hstart]
  rw [if_neg Bool.false_ne_true, if_neg Bool.false_ne_true, hc, hp]

/-- Branch of `_start_game` on an existing, inhabited room. -/
theorem startGame_run (s : ServerState) (rid : String) (room : RoomInfo)
    (first : String) (rest : List String)
    (hr : alookup rid s.rooms = some room)
    (hps : room.players = first :: rest) :
    startGame s rid =
      (let room1 : RoomInfo := { room with is_started := true }
       let gs : GameState :=
         { room_id := room.room_id, current_player_id := first,
           turn_number := 0, shot_number := 0,
           ball_positions := [], ball_states := [], cue_state := none,
           score := (first :: rest).foldl (fun m p => aset p 0 m) [],
           is_game_over := false, winner_id := none }
       let s1 : ServerState :=
         { s with rooms := aset rid room1 s.rooms,
                  game_states := aset room.room_id gs s.game_states }
       ⟨s1, broadcastToRoom s1 rid
              ⟨.GAME_START, "server", .gameStart (snapshot s1 room1) gs first⟩ none,
         false⟩) := by
  unfold startGame
  rw [hr]
  dsimp only
  rw [hps]

/-- Branch of `_handle_game_start_request` with all three checks passing hands off to
`_start_game`. -/
theorem handleGameStartRequest_run (s : ServerState) (cid rid : String) (room : RoomInfo)
    (hc : alookup cid s.clients = some (some rid))
    (hr : alookup rid s.rooms = some room)
    (hhost : room.players.any (fun p => p == cid && (resolvePinfo s p).is_host) = true)
    (hready : room.players.all (fun p => (resolvePinfo s p).is_ready) = true)
    (hlen : ¬ room.players.length < 2) :
    handleGameStartRequest s cid = startGame s room.room_id := by
  unfold handleGameStartRequest
  rw [hc]
  dsimp only
  rw [hr]
  dsimp only
  rw [if_neg (not_not_intro hhost), if_neg (not_not_intro hready), if_neg hlen]

/-! ### Preservation, continued -/

theorem inv_leaveRoom (s : ServerState) (cid rid : String) (h : Inv s) :
    Inv (leaveRoom s cid rid).state := by
  cases hr : alookup rid s.rooms with
  | none => rw [leaveRoom_not_found s cid rid hr]; exact h
  | some room =>
    obtain ⟨hpi, hrooms⟩ := h
    cases hrem : room.players.filter (fun p => p ≠ cid) with
    | nil =>
      rw [leaveRoom_empty s cid rid room hr hrem]
      refine ⟨hpi, ?_⟩
      intro rid' room' hl
      simp only at hl
      by_cases hrid : rid' = rid
      · subst hrid
        rw [alookup_adel_self] at hl
        cases hl
      · rw [alookup_adel_ne _ _ _ hrid, alookup_aset_ne _ _ _ _ hrid] at hl
        exact hrooms rid' room' hl
    | cons q rest =>
      by_cases hh : room.host_id = cid
      · rw [leaveRoom_host s cid rid room q rest hr hrem hh]
        constructor
        · intro pid pi hl
          simp only at hl
          by_cases hp : pid = q
          · subst hp
            rw [alookup_aupdate_self] at hl
            cases ho : alookup pid s.pinfos with
            | none => rw [ho] at hl; cases hl
            | some pi0 => rw [ho] at hl; cases hl; exact hpi pid pi0 ho
          · rw [alookup_aupdate_ne _ _ _ _ hp] at hl
            exact hpi _ _ hl
        · intro rid' room' hl
          simp only at hl
          by_cases hrid : rid' = rid
          · subst hrid
            rw [alookup_aset_self] at hl
            injection hl with hl
            subst hl
            refine ⟨by simp, by simp, ?_⟩
            intro pid hpid
            simp only at hpid
            rw [isSome_alookup_aupdate]
            have hpid' : pid ∈ room.players.filter (fun p => p ≠ cid) := by
              rw [hrem]; exact hpid
            exact (hrooms _ room hr).2.2 pid (List.mem_filter.mp hpid').1
          · rw [alookup_aset_ne _ _ _ _ hrid] at hl
            obtain ⟨h1, h2, h3⟩ := hrooms rid' room' hl
            refine ⟨h1, h2, fun pid hpid => ?_⟩
            rw [isSome_alookup_aupdate]
            exact h3 pid hpid
      · rw [leaveRoom_nothost s cid rid room q rest hr hrem hh]
        refine ⟨hpi, ?_⟩
        intro rid' room' hl
        simp only at hl
        by_cases hrid : rid' = rid
        · subst hrid
          rw [alookup_aset_self] at hl
          injection hl with hl
          subst hl
          refine ⟨by simp, ?_, ?_⟩
          · show room.host_id ∈ q :: rest
            have hmem : room.host_id ∈ room.players.filter (fun p => p ≠ cid) :=
              List.mem_filter.mpr ⟨(hrooms _ room hr).2.1, decide_eq_true hh⟩
            rw [hrem] at hmem
            exact hmem
          · intro pid hpid
            simp only at hpid
            have hpid' : pid ∈ room.players.filter (fun p => p ≠ cid) := by
              rw [hrem]; exact hpid
            exact (hrooms _ room hr).2.2 pid (List.mem_filter.mp hpid').1
        · rw [alookup_aset_ne _ _ _ _ hrid] at hl
          exact hrooms rid' room' hl

/-- Predicate `Inv` reads only the heap and the room registry. -/
theorem inv_of_fields (s t : ServerState) (hp : t.pinfos = s.pinfos)
    (hr : t.rooms = s.rooms) (h : Inv s) : Inv t := by
  obtain ⟨h1, h2⟩ := h
  constructor
  · intro pid pi hl
    rw [hp] at hl
    exact h1 _ _ hl
  · intro rid room hl
    rw [hr] at hl
    obtain ⟨g1, g2, g3⟩ := h2 rid room hl
    refine ⟨g1, g2, fun pid hpid => ?_⟩
    rw [hp]
    exact g3 pid hpid

theorem inv_disconnectClient (s : ServerState) (cid : String) (h : Inv s) :
    Inv (disconnectClient s cid).state := by
  unfold disconnectClient
  cases hc : alookup cid s.clients with
  | none => exact h
  | some orid =>
    cases orid with
    | none => exact h
    | some rid =>
      dsimp only
      exact inv_of_fields _ _ rfl rfl (inv_leaveRoom s cid rid h)

theorem inv_handleConnect (s : ServerState) (cid : String) (d : MsgData) (h : Inv s) :
    Inv (handleConnect s cid d).state := by
  unfold handleConnect
  cases hc : alookup cid s.clients with
  | none => exact h
  | some _ =>
    dsimp only
    exact inv_pinfos_aupdate s cid _ (fun pi => rfl) h

theorem inv_handleCreateRoom (s : ServerState) (cid : String) (d : MsgData) (gen : String)
    (h : Inv s) : Inv (handleCreateRoom s cid d gen).state := by
  by_cases hfull : maxRooms ≤ s.rooms.length
  · unfold handleCreateRoom
    rw [if_pos hfull]
    exact h
  · cases hc : alookup cid s.clients with
    | none =>
      unfold handleCreateRoom
      rw [if_neg hfull, hc]
      cases alookup cid s.pinfos <;> exact h
    | some orid =>
      cases hp : alookup cid s.pinfos with
      | none =>
        unfold handleCreateRoom
        rw [if_neg hfull, hc, hp]
        exact h
      | some pi0 =>
        rw [handleCreateRoom_ok s cid d gen orid pi0 hfull hc hp]
        obtain ⟨hpi', hrooms'⟩ :=
          inv_pinfos_aupdate s cid (fun pi => { pi with is_host := true, is_ready := false })
            (fun pi => rfl) h
        constructor
        · exact hpi'
        · intro rid' room' hl
          simp only at hl
          by_cases hrid : rid' = gen
          · subst hrid
            rw [alookup_aset_self] at hl
            injection hl with hl
            subst hl
            refine ⟨by simp, by simp, ?_⟩
            intro pid hpid
            simp only [List.mem_singleton] at hpid
            subst hpid
            rw [isSome_alookup_aupdate, hp]
            rfl
          · rw [alookup_aset_ne _ _ _ _ hrid] at hl
            exact hrooms' rid' room' hl

theorem inv_handleJoinRoom (s : ServerState) (cid : String) (d : MsgData) (h : Inv s) :
    Inv (handleJoinRoom s cid d).state := by
  cases hd : d.room_id with
  | none => unfold handleJoinRoom; rw [hd]; exact h
  | some rid =>
    by_cases hne : rid = ""
    · unfold handleJoinRoom
      rw [hd]
      dsimp only
      rw [if_pos hne]
      exact h
    · cases hr : alookup rid s.rooms with
      | none =>
        unfold handleJoinRoom
        rw [hd]
        dsimp only
        rw [if_neg hne, hr]
        exact h
      | some room =>
        cases hfull : room.isFull with
        | true =>
          unfold handleJoinRoom
          rw [hd]
          dsimp only
          rw [if_neg hne, hr]
          dsimp only
          rw [hfull, if_pos rfl]
          exact h
        | false =>
          cases hstart : room.is_started with
          | true =>
            unfold handleJoinRoom
            rw [hd]
            dsimp only
            rw [if_neg hne, hr]
            dsimp only
            rw [hfull, hstart, if_neg Bool.false_ne_true, if_pos rfl]
            exact h
          | false =>
            cases hc : alookup cid s.clients with
            | none =>
              unfold handleJoinRoom
              rw [hd]
              dsimp only
              rw [if_neg hne, hr]
              dsimp only
              rw [hfull, hstart, if_neg Bool.false_ne_true, if_neg Bool.false_ne_true, hc]
              cases alookup cid s.pinfos <;> exact h
            | some orid =>
              cases hp : alookup cid s.pinfos with
              | none =>
                unfold handleJoinRoom
                rw [hd]
                dsimp only
                rw [if_neg hne, hr]
                dsimp only
                rw [hfull, hstart, if_neg Bool.false_ne_true, if_neg Bool.false_ne_true,
                  hc, hp]
                exact h
              | some pi0 =>
                rw [handleJoinRoom_ok s cid d rid room orid pi0 hd hne hr hfull hstart hc hp]
                obtain ⟨hpi, hrooms⟩ := h
                obtain ⟨hpi', hrooms'⟩ :=
                  inv_pinfos_aupdate s cid
                    (fun pi => { pi with is_host := false, is_ready := false })
                    (fun pi => rfl) ⟨hpi, hrooms⟩
                constructor
                · exact hpi'
                · intro rid' room' hl
                  simp only at hl
                  by_cases hrid : rid' = rid
                  · subst hrid
                    rw [alookup_aset_self] at hl
                    injection hl with hl
                    subst hl
                    obtain ⟨h1, h2, h3⟩ := hrooms _ room hr
                    refine ⟨by simp, by simp [List.mem_append, h2], ?_⟩
                    intro pid hpid
                    simp only [List.mem_append, List.mem_singleton] at hpid
                    rw [isSome_alookup_aupdate]
                    rcases hpid with hold | hnew
                    · exact h3 pid hold
                    · subst hnew
                      rw [hp]
                      rfl
                  · rw [alookup_aset_ne _ _ _ _ hrid] at hl
                    exact hrooms' rid' room' hl

theorem inv_handleLeaveRoom (s : ServerState) (cid : String) (h : Inv s) :
    Inv (handleLeaveRoom s cid).state := by
  unfold handleLeaveRoom
  cases hc : alookup cid s.clients with
  | none => exact h
  | some orid =>
    cases orid with
    | none => exact h
    | some rid =>
      dsimp only
      exact inv_leaveRoom s cid rid h

theorem inv_handlePlayerReady (s : ServerState) (cid : String) (d : MsgData) (h : Inv s) :
    Inv (handlePlayerReady s cid d).state := by
  unfold handlePlayerReady
  cases hc : alookup cid s.clients with
  | none => exact h
  | some orid =>
    cases orid with
    | none => exact h
    | some rid =>
      dsimp only
      cases hr : alookup rid s.rooms with
      | none => exact h
      | some room =>
        dsimp only
        by_cases hmem : cid ∈ room.players
        · rw [if_pos hmem]
          exact inv_pinfos_aupdate s cid _ (fun pi => rfl) h
        · rw [if_neg hmem]
          exact h

theorem inv_startGame (s : ServerState) (rid : String) (h : Inv s) :
    Inv (startGame s rid).state := by
  cases hr : alookup rid s.rooms with
  | none => unfold startGame; rw [hr]; exact h
  | some room =>
    obtain ⟨hpi, hrooms⟩ := h
    have hroomOK := hrooms rid room hr
    cases hps : room.players with
    | nil => exact absurd hps hroomOK.1
    | cons first rest =>
      rw [startGame_run s rid room first rest hr hps]
      refine ⟨hpi, ?_⟩
      intro rid' room' hl
      simp only at hl
      by_cases hrid : rid' = rid
      · subst hrid
        rw [alookup_aset_self] at hl
        injection hl with hl
        subst hl
        exact ⟨hroomOK.1, hroomOK.2.1, hroomOK.2.2⟩
      · rw [alookup_aset_ne _ _ _ _ hrid] at hl
        exact hrooms rid' room' hl

theorem inv_handleGameStartRequest (s : ServerState) (cid : String) (h : Inv s) :
    Inv (handleGameStartRequest s cid).state := by
  unfold handleGameStartRequest
  cases hc : alookup cid s.clients with
  | none => exact h
  | some orid =>
    cases orid with
    | none => exact h
    | some rid =>
      dsimp only
      cases hr : alookup rid s.rooms with
      | none => exact h
      | some room =>
        dsimp only
        by_cases h1 : room.players.any (fun p => p == cid && (resolvePinfo s p).is_host)
        · rw [if_neg (not_not_intro h1)]
          by_cases h2 : room.players.all (fun p => (resolvePinfo s p).is_ready)
          · rw [if_neg (not_not_intro h2)]
            by_cases h3 : room.players.length < 2
            · rw [if_pos h3]
              exact h
            · rw [if_neg h3]
              exact inv_startGame s room.room_id h
          · rw [if_pos h2]
            exact h
        · rw [if_pos h1]
          exact h



theorem inv_processMessage (s : ServerState) (cid : String) (m : GameMessage) (gen : String)
    (h : Inv s) : Inv (processMessage s cid m gen).state := by
  unfold processMessage
  cases m.msg_type with
  | CONNECT => exact inv_handleConnect s cid m.data h
  | DISCONNECT => exact inv_disconnectClient s cid h
  | PING => exact h
  | CREATE_ROOM => exact inv_handleCreateRoom s cid m.data gen h
  | JOIN_ROOM => exact inv_handleJoinRoom s cid m.data h
  | LEAVE_ROOM => exact inv_handleLeaveRoom s cid h
  | ROOM_LIST => exact h
  | PLAYER_READY => exact inv_handlePlayerReady s cid m.data h
  | GAME_START => exact inv_handleGameStartRequest s cid h
  | SHOT_AIM =>
    unfold handleShotAim
    cases alookup cid s.clients with
    | none => exact h
    | some orid =>
      cases orid with
      | none => exact h
      | some rid =>
        dsimp only
        cases alookup rid s.rooms with
        | none => cases alookup rid s.game_states <;> exact h
        | some room =>
          cases alookup rid s.game_states with
          | none => exact h
          | some gs =>
            dsimp only
            by_cases hcur : gs.current_player_id = cid
            · rw [if_neg (not_not_intro hcur)]; exact h
            · rw [if_pos hcur]; exact h
  | SHOT_EXECUTE =>
    unfold handleShotExecute
    cases alookup cid s.clients with
    | none => exact h
    | some orid =>
      cases orid with
      | none => exact h
      | some rid =>
        dsimp only
        cases alookup rid s.rooms with
        | none => cases alookup rid s.game_states <;> exact h
        | some room =>
          cases alookup rid s.game_states with
          | none => exact h
          | some gs =>
            dsimp only
            by_cases hcur : gs.current_player_id = cid
            · rw [if_neg (not_not_intro hcur)]; exact h
            · rw [if_pos hcur]; exact h
  | CHAT_MESSAGE =>
    unfold handleChatMessage
    cases alookup cid s.clients with
    | none => exact h
    | some orid => cases orid <;> exact h
  | _ => exact h

/-- Every reachable registry state is well-formed. -/
theorem reachable_inv (s : ServerState) (h : Reachable s) : Inv s := by
  induction h with
  | init => exact inv_initState
  | accept s cid hc hp hr ih => exact inv_acceptClient s cid ih
  | msg s cid m gen hr ih => exact inv_processMessage s cid m gen ih
  | drop s cid hr ih => exact inv_disconnectClient s cid ih

/-! ### Branch equations for `_handle_player_ready` -/

theorem handlePlayerReady_no_client (s : ServerState) (cid : String) (d : MsgData)
    (hc : alookup cid s.clients = none) :
    handlePlayerReady s cid d = ⟨s, [], false⟩ := by
  unfold handlePlayerReady
  rw [hc]

theorem handlePlayerReady_no_ptr (s : ServerState) (cid : String) (d : MsgData)
    (hc : alookup cid s.clients = some none) :
    handlePlayerReady s cid d = ⟨s, [], false⟩ := by
  unfold handlePlayerReady
  rw [hc]

theorem handlePlayerReady_stale (s : ServerState) (cid : String) (d : MsgData) (rid : String)
    (hc : alookup cid s.clients = some (some rid))
    (hr : alookup rid s.rooms = none) :
    handlePlayerReady s cid d = ⟨s, [], false⟩ := by
  unfold handlePlayerReady
  rw [hc]
  dsimp only
  rw [hr]

theorem handlePlayerReady_run (s : ServerState) (cid : String) (d : MsgData) (rid : String)
    (room : RoomInfo)
    (hc : alookup cid s.clients = some (some rid))
    (hr : alookup rid s.rooms = some room) :
    handlePlayerReady s cid d =
      (let f : PlayerInfo → PlayerInfo := fun pi => { pi with is_ready := d.is_ready.getD true }
       let s1 : ServerState := if cid ∈ room.players
         then { s with pinfos := aupdate cid f s.pinfos }
         else s
       ⟨s1, broadcastToRoom s1 room.room_id
              ⟨.ROOM_UPDATE, "server", .roomUpdate (snapshot s1 room)⟩ none, false⟩) := by
  unfold handlePlayerReady
  rw [hc]
  dsimp only
  rw [hr]

/-! ## Claims -/

/-- Claim C7: processing a second PLAYER_READY with the same `is_ready` value
immediately after a first one leaves the registries exactly as after the
first, and re-sends exactly the same ROOM_UPDATE broadcast (every message
the second invocation emits is a ROOM_UPDATE). -/
theorem c7_player_ready_idempotent (s : ServerState) (cid : String) (d : MsgData) :
    (handlePlayerReady (handlePlayerReady s cid d).state cid d).state
        = (handlePlayerReady s cid d).state ∧
    (handlePlayerReady (handlePlayerReady s cid d).state cid d).sends
        = (handlePlayerReady s cid d).sends ∧
    (∀ q m, (q, m) ∈ (handlePlayerReady (handlePlayerReady s cid d).state cid d).sends →
        m.msg_type = .ROOM_UPDATE) := by
  cases hc : alookup cid s.clients with
  | none =>
    rw [handlePlayerReady_no_client s cid d hc]
    dsimp only
    rw [handlePlayerReady_no_client s cid d hc]
    refine ⟨rfl, rfl, ?_⟩
    intro q m hm
    simp at hm
  | some orid =>
    cases orid with
    | none =>
      rw [handlePlayerReady_no_ptr s cid d hc]
      dsimp only
      rw [handlePlayerReady_no_ptr s cid d hc]
      refine ⟨rfl, rfl, ?_⟩
      intro q m hm
      simp at hm
    | some rid =>
      cases hr : alookup rid s.rooms with
      | none =>
        rw [handlePlayerReady_stale s cid d rid hc hr]
        dsimp only
        rw [handlePlayerReady_stale s cid d rid hc hr]
        refine ⟨rfl, rfl, ?_⟩
        intro q m hm
        simp at hm
      | some room =>
        rw [handlePlayerReady_run s cid d rid room hc hr]
        dsimp only
        by_cases hmem : cid ∈ room.players
        · rw [if_pos hmem]
          rw [handlePlayerReady_run { s with pinfos := aupdate cid (fun pi => { pi with is_ready := d.is_ready.getD true }) s.pinfos } cid d rid room hc hr]
          dsimp only
          rw [if_pos hmem]
          have hpf : aupdate cid (fun pi => { pi with is_ready := d.is_ready.getD true })
              (aupdate cid (fun pi => { pi with is_ready := d.is_ready.getD true }) s.pinfos) =
              aupdate cid (fun pi => { pi with is_ready := d.is_ready.getD true }) s.pinfos :=
            aupdate_aupdate _ _ _ (fun v => rfl)
          rw [hpf]
          refine ⟨rfl, rfl, ?_⟩
          intro q m hm
          rw [mem_broadcastToRoom] at hm
          rw [hm.1]
        · rw [if_neg hmem]
          rw [handlePlayerReady_run s cid d rid room hc hr]
          dsimp only
          rw [if_neg hmem]
          refine ⟨rfl, rfl, ?_⟩
          intro q m hm
          rw [mem_broadcastToRoom] at hm
          rw [hm.1]

/-- Claim C8: a line on which JSON decoding fails is logged and dropped by the
read loop: it neither disconnects the client nor perturbs the registries,
and the loop's outcome over any frame sequence equals its outcome over just
the decodable frames. -/
theorem c8_malformed_line_dropped (cid : String) (s : ServerState) (frames : List Frame) :
    clientLoop cid s (Frame.malformed :: frames) = clientLoop cid s frames ∧
    clientLoop cid s frames = clientLoop cid s (frames.filter Frame.isValid) := by
  refine ⟨rfl, ?_⟩
  induction frames generalizing s with
  | nil => rfl
  | cons f rest ih =>
    cases f with
    | malformed => simpa [clientLoop, Frame.isValid] using ih s
    | valid m gen => simp [clientLoop, Frame.isValid, ih]

/-! ### Reachability of the concrete traces -/

theorem trA_reachable : Reachable trA :=
  Reachable.accept initState "A" rfl rfl Reachable.init

theorem trARoom_reachable : Reachable trARoom :=
  Reachable.msg trA "A" ⟨.CREATE_ROOM, "A", {}⟩ "r1" trA_reachable

theorem trASelfJoin_reachable : Reachable trASelfJoin :=
  Reachable.msg trARoom "A" ⟨.JOIN_ROOM, "A", { room_id := some "r1" }⟩ ""
    trARoom_reachable

/-- Claim C1, counterexample: the server never checks whether a joiner is
already a member, so A can re-join its own room; afterwards "r1" is a
reachable registry state whose `host_id` is the `player_id` of **two**
entries of `players`, refuting "exactly one member". -/
theorem c1_counterexample :
    Reachable trASelfJoin ∧
    ∃ room, alookup "r1" trASelfJoin.rooms = some room ∧ room.host_id = "A" ∧
      ((snapshot trASelfJoin room).players.filter
          (fun pi => pi.player_id = room.host_id)).length = 2 := by
  refine ⟨trASelfJoin_reachable,
    ⟨{ room_id := "r1", room_name := "Room r1", host_id := "A", players := ["A", "A"],
       max_players := 2, game_type := "8ball", is_started := false }, ?_, rfl, ?_⟩⟩
  · rfl
  · rfl

/-- Claim C1, amended: in every reachable registry state, each registered
room's `host_id` is the `player_id` of **at least one** current member of
its `players` list (the heap entry for `host_id` exists and carries
`player_id = host_id`).  "Exactly one" fails only because an unchecked
re-join can duplicate a member (see the counterexample). -/
theorem c1_host_is_member (s : ServerState) (h : Reachable s) (rid : String)
    (room : RoomInfo) (hr : alookup rid s.rooms = some room) :
    room.host_id ∈ room.players ∧
    ∃ pi, alookup room.host_id s.pinfos = some pi ∧ pi.player_id = room.host_id := by
  obtain ⟨hpi, hrooms⟩ := reachable_inv s h
  obtain ⟨h1, h2, h3⟩ := hrooms rid room hr
  refine ⟨h2, ?_⟩
  have hs := h3 room.host_id h2
  cases ho : alookup room.host_id s.pinfos with
  | none => rw [ho] at hs; cases hs
  | some pi => exact ⟨pi, rfl, hpi _ _ ho⟩

theorem c1_host_is_member_witness :
    ("A" : String) ∈ ["A", "A"] ∧
    ∃ pi, alookup "A" trASelfJoin.pinfos = some pi ∧ pi.player_id = "A" :=
  c1_host_is_member trASelfJoin trASelfJoin_reachable "r1"
    { room_id := "r1", room_name := "Room r1", host_id := "A", players := ["A", "A"],
      max_players := 2, game_type := "8ball", is_started := false } rfl

/-- Claim C2: the handler invocation that removes the last player deletes the
room and its GameState in the same `_leave_room` call (sending nothing),
and no reachable registry state contains a room with an empty `players`
list. -/
theorem c2_empty_room_deleted :
    (∀ (s : ServerState) (cid rid : String) (room : RoomInfo),
        alookup rid s.rooms = some room →
        room.players.filter (fun p => p ≠ cid) = [] →
        alookup rid (leaveRoom s cid rid).state.rooms = none ∧
        alookup rid (leaveRoom s cid rid).state.game_states = none ∧
        (leaveRoom s cid rid).sends = []) ∧
    (∀ s : ServerState, Reachable s →
        ∀ rid room, alookup rid s.rooms = some room → room.players ≠ []) := by
  constructor
  · intro s cid rid room hr hrem
    rw [leaveRoom_empty s cid rid room hr hrem]
    exact ⟨alookup_adel_self _ _, alookup_adel_self _ _, rfl⟩
  · intro s h rid room hr
    exact ((reachable_inv s h).2 rid room hr).1

theorem c2_empty_room_deleted_witness :
    alookup "r1" (leaveRoom trARoom "A" "r1").state.rooms = none ∧
    alookup "r1" (leaveRoom trARoom "A" "r1").state.game_states = none ∧
    roomA.players ≠ [] :=
  ⟨(c2_empty_room_deleted.1 trARoom "A" "r1" roomA rfl rfl).1,
   (c2_empty_room_deleted.1 trARoom "A" "r1" roomA rfl rfl).2.1,
   c2_empty_room_deleted.2 trARoom trARoom_reachable "r1" roomA rfl⟩

/-- Claim C3, a code bug: the claim matches the intent but the code diverges; on a
GAME_START that must be rejected (here: a ready host alone in its room, so
fewer than 2 players), `_handle_game_start_request` calls
`self._send_error(...)` — a method that exists nowhere on
`MultiplayerServer` — so an `AttributeError` is raised (`raised = true`)
and swallowed by the read loop's generic handler.  The registries stay
unchanged and no GameState is created, as the claim requires, but the
promised ERROR reply to the requester is never sent (`sends = []`). -/
theorem c3_game_start_rejection_sends_no_error :
    (alookup "r1" trAReady.rooms).map (fun r => r.players.length) = some 1 ∧
    (alookup "A" trAReady.pinfos).map (fun pi => pi.is_ready) = some true ∧
    handleGameStartRequest trAReady "A" = ⟨trAReady, [], true⟩ :=
  ⟨rfl, rfl, rfl⟩

/-! ### Branch equations for the shot relays -/

theorem handleShotAim_run (s : ServerState) (cid : String) (d : MsgData) (rid : String)
    (room : RoomInfo) (gs : GameState)
    (hc : alookup cid s.clients = some (some rid))
    (hr : alookup rid s.rooms = some room)
    (hg : alookup rid s.game_states = some gs) :
    handleShotAim s cid d =
      if gs.current_player_id ≠ cid then ⟨s, [], false⟩
      else ⟨s, broadcastToRoom s room.room_id
              ⟨.SHOT_AIM, cid, .echoAim d⟩ (some cid), false⟩ := by
  unfold handleShotAim
  rw [hc]
  dsimp only
  rw [hr, hg]

theorem handleShotExecute_run (s : ServerState) (cid : String) (d : MsgData) (rid : String)
    (room : RoomInfo) (gs : GameState)
    (hc : alookup cid s.clients = some (some rid))
    (hr : alookup rid s.rooms = some room)
    (hg : alookup rid s.game_states = some gs) :
    handleShotExecute s cid d =
      if gs.current_player_id ≠ cid then ⟨s, [], false⟩
      else ⟨s, broadcastToRoom s room.room_id
              ⟨.SHOT_EXECUTE, cid, .echoExecute d⟩ none, false⟩ := by
  unfold handleShotExecute
  rw [hc]
  dsimp only
  rw [hr, hg]

/-- Claim C4: SHOT_AIM/SHOT_EXECUTE from anyone but `GameState.current_player_id`
produce no message and no state change; from the current player the payload
is re-broadcast verbatim, where the aim broadcast excludes the sender and
the execute broadcast reaches every (still-connected) member of the room,
the sender included. -/
theorem c4_shot_turn_gate (s : ServerState) (cid rid : String) (room : RoomInfo)
    (gs : GameState) (d : MsgData)
    (hc : alookup cid s.clients = some (some rid))
    (hr : alookup rid s.rooms = some room)
    (hg : alookup rid s.game_states = some gs)
    (hid : room.room_id = rid) :
    (gs.current_player_id ≠ cid →
      handleShotAim s cid d = ⟨s, [], false⟩ ∧
      handleShotExecute s cid d = ⟨s, [], false⟩) ∧
    (gs.current_player_id = cid →
      handleShotAim s cid d =
        ⟨s, broadcastToRoom s rid ⟨.SHOT_AIM, cid, .echoAim d⟩ (some cid), false⟩ ∧
      handleShotExecute s cid d =
        ⟨s, broadcastToRoom s rid ⟨.SHOT_EXECUTE, cid, .echoExecute d⟩ none, false⟩ ∧
      (∀ q, (q, (⟨.SHOT_AIM, cid, .echoAim d⟩ : OutMsg)) ∈ (handleShotAim s cid d).sends ↔
          q ∈ room.players ∧ q ≠ cid ∧ (alookup q s.clients).isSome) ∧
      (∀ q, (q, (⟨.SHOT_EXECUTE, cid, .echoExecute d⟩ : OutMsg))
              ∈ (handleShotExecute s cid d).sends ↔
          q ∈ room.players ∧ (alookup q s.clients).isSome)) := by
  subst hid
  constructor
  · intro hne
    rw [handleShotAim_run s cid d _ room gs hc hr hg,
      handleShotExecute_run s cid d _ room gs hc hr hg, if_pos hne, if_pos hne]
    exact ⟨rfl, rfl⟩
  · intro heq
    have hne' : ¬ gs.current_player_id ≠ cid := not_not_intro heq
    rw [handleShotAim_run s cid d _ room gs hc hr hg,
      handleShotExecute_run s cid d _ room gs hc hr hg, if_neg hne', if_neg hne']
    refine ⟨rfl, rfl, ?_, ?_⟩
    · intro q
      dsimp only
      rw [mem_broadcastToRoom]
      constructor
      · rintro ⟨hm, room2, hroom2, hq, hex, hs⟩
        rw [hr] at hroom2
        injection hroom2 with hroom2
        subst hroom2
        refine ⟨hq, ?_, hs⟩
        intro hqc
        exact hex (by rw [hqc])
      · rintro ⟨hq, hqc, hs⟩
        refine ⟨rfl, room, hr, hq, ?_, hs⟩
        simpa using Ne.symm hqc
    · intro q
      dsimp only
      rw [mem_broadcastToRoom]
      constructor
      · rintro ⟨hm, room2, hroom2, hq, hex, hs⟩
        rw [hr] at hroom2
        injection hroom2 with hroom2
        subst hroom2
        exact ⟨hq, hs⟩
      · rintro ⟨hq, hs⟩
        exact ⟨rfl, room, hr, hq, by simp, hs⟩

theorem c4_shot_turn_gate_witness :
    handleShotAim startedS "B" shotD = ⟨startedS, [], false⟩ ∧
    handleShotExecute startedS "B" shotD = ⟨startedS, [], false⟩ :=
  (c4_shot_turn_gate startedS "B" "r1" gameRoom gameGS shotD rfl rfl rfl rfl).1 (by decide)

/-- Claim C5: a successful GAME_START marks the room started, installs exactly
one fresh GameState (turn 0, shot 0, empty ball maps, no cue, score 0 for
every member, current player = first in join order), and broadcasts a
GAME_START carrying the room snapshot and that GameState to every
(still-connected) member. -/
theorem c5_game_start_success (s : ServerState) (cid rid : String) (room : RoomInfo)
    (first : String) (rest : List String)
    (hc : alookup cid s.clients = some (some rid))
    (hr : alookup rid s.rooms = some room)
    (hid : room.room_id = rid)
    (hps : room.players = first :: rest)
    (hhost : room.players.any (fun p => p == cid && (resolvePinfo s p).is_host) = true)
    (hready : room.players.all (fun p => (resolvePinfo s p).is_ready) = true)
    (hlen : 2 ≤ room.players.length) :
    (let room1 : RoomInfo := { room with is_started := true }
     let gs0 : GameState :=
       { room_id := rid, current_player_id := first, turn_number := 0, shot_number := 0,
         ball_positions := [], ball_states := [], cue_state := none,
         score := (first :: rest).foldl (fun m p => aset p 0 m) [],
         is_game_over := false, winner_id := none }
     let s1 : ServerState :=
       { s with rooms := aset rid room1 s.rooms, game_states := aset rid gs0 s.game_states }
     let msg : OutMsg := ⟨.GAME_START, "server", .gameStart (snapshot s1 room1) gs0 first⟩
     handleGameStartRequest s cid = ⟨s1, broadcastToRoom s1 rid msg none, false⟩ ∧
     alookup rid s1.rooms = some room1 ∧
     alookup rid s1.game_states = some gs0 ∧
     (∀ p, p ∈ room.players → alookup p gs0.score = some 0) ∧
     (∀ q, q ∈ room.players → (alookup q s.clients).isSome →
        (q, msg) ∈ (handleGameStartRequest s cid).sends)) := by
  subst hid
  have hrun : handleGameStartRequest s cid = startGame s room.room_id :=
    handleGameStartRequest_run s cid room.room_id room hc hr hhost hready (by omega)
  have hstart := startGame_run s room.room_id room first rest hr hps
  dsimp only
  refine ⟨?_, alookup_aset_self _ _ _, alookup_aset_self _ _ _, ?_, ?_⟩
  · rw [hrun, hstart]
  · intro p hp
    rw [hps] at hp
    exact alookup_score_fold _ _ _ (Or.inl hp)
  · intro q hq hqc
    rw [hrun, hstart]
    dsimp only
    rw [mem_broadcastToRoom]
    refine ⟨rfl, { room with is_started := true }, alookup_aset_self _ _ _, hq, by simp, hqc⟩

theorem c5_game_start_success_witness :
    (handleGameStartRequest readyS "A").raised = false ∧
    alookup "r1" startedS.rooms = some gameRoom ∧
    alookup "r1" startedS.game_states = some gameGS ∧
    alookup "A" gameGS.score = some 0 ∧ alookup "B" gameGS.score = some 0 ∧
    ("A", (⟨.GAME_START, "server", .gameStart gameSnap gameGS "A"⟩ : OutMsg)) ∈
        (handleGameStartRequest readyS "A").sends ∧
    ("B", (⟨.GAME_START, "server", .gameStart gameSnap gameGS "A"⟩ : OutMsg)) ∈
        (handleGameStartRequest readyS "A").sends := by
  have h := c5_game_start_success readyS "A" "r1" readyRoom "A" ["B"]
    rfl rfl rfl rfl rfl rfl (by decide)
  exact ⟨by rw [h.1], h.2.1, h.2.2.1,
    h.2.2.2.1 "A" (by decide), h.2.2.2.1 "B" (by decide),
    h.2.2.2.2 "A" (by decide) rfl, h.2.2.2.2 "B" (by decide) rfl⟩

/-- Claim C6: when the host leaves (via LEAVE_ROOM or disconnect, both of which
route through `_leave_room`) and the room stays inhabited, `host_id`
becomes the first remaining player's id, that player's heap record flips
`is_host = true`, and the remaining (still-connected) players receive a
ROOM_UPDATE broadcast. -/
theorem c6_host_reassigned (s : ServerState) (cid rid : String) (room : RoomInfo)
    (q : String) (rest : List String)
    (hr : alookup rid s.rooms = some room)
    (hh : room.host_id = cid)
    (hrem : room.players.filter (fun p => p ≠ cid) = q :: rest) :
    (let room2 : RoomInfo := { room with players := q :: rest, host_id := q }
     let s2 : ServerState :=
       { s with rooms := aset rid room2 s.rooms,
                clients := aupdate cid (fun _ => none) s.clients,
                pinfos := aupdate q (fun pi => { pi with is_host := true }) s.pinfos }
     let msg : OutMsg := ⟨.ROOM_UPDATE, "server", .roomUpdate (snapshot s2 room2)⟩
     leaveRoom s cid rid = ⟨s2, broadcastToRoom s2 rid msg none, false⟩ ∧
     alookup rid s2.rooms = some room2 ∧
     alookup q s2.pinfos =
       (alookup q s.pinfos).map (fun pi => { pi with is_host := true }) ∧
     (∀ p, p ∈ q :: rest → (alookup p s.clients).isSome →
        (p, msg) ∈ (leaveRoom s cid rid).sends) ∧
     (alookup cid s.clients = some (some rid) →
        (disconnectClient s cid).state.rooms = s2.rooms ∧
        (handleLeaveRoom s cid).state = s2)) := by
  have hlv := leaveRoom_host s cid rid room q rest hr hrem hh
  dsimp only
  refine ⟨hlv, alookup_aset_self _ _ _, alookup_aupdate_self _ _ _, ?_, ?_⟩
  · intro p hp hpc
    rw [hlv]
    dsimp only
    rw [mem_broadcastToRoom]
    refine ⟨rfl, _, alookup_aset_self _ _ _, hp, by simp, ?_⟩
    rw [isSome_alookup_aupdate]
    exact hpc
  · intro hc
    constructor
    · unfold disconnectClient
      rw [hc]
      dsimp only
      rw [hlv]
    · unfold handleLeaveRoom
      rw [hc]
      dsimp only
      rw [hlv]

theorem c6_host_reassigned_witness :
    alookup "r1" (leaveRoom trJoined "A" "r1").state.rooms =
      some { room_id := "r1", room_name := "Game Room", host_id := "B", players := ["B"],
             max_players := 2, game_type := "8ball", is_started := false } ∧
    alookup "B" (leaveRoom trJoined "A" "r1").state.pinfos =
      some ⟨"B", "Player_B", false, true⟩ ∧
    ("B", c6msg) ∈ (leaveRoom trJoined "A" "r1").sends := by
  have h := c6_host_reassigned trJoined "A" "r1" readyRoom "B" [] rfl rfl rfl
  refine ⟨?_, ?_, ?_⟩
  · rw [h.1]
    exact h.2.1
  · rw [h.1]
    exact h.2.2.1.trans rfl
  · exact h.2.2.2.1 "B" (by decide) rfl

/-- Claim C9, counterexample: with no `on_error` callback registered, a refused
connect pushes nothing onto the inbound queue, and a later `update()`
delivers nothing — the synthesized ERROR of the claim never exists
(`_connect_and_listen` guards the queue put with `if self.on_error:`). -/
theorem c9_counterexample :
    (connectRefused c9noCallback).queue = [] ∧
    (clientUpdate (connectRefused c9noCallback)).2 = [] := ⟨rfl, rfl⟩

/-- Claim C9, amended: provided an `on_error` callback is registered, a refused
connect is surfaced as a synthesized ERROR message appended to the same
inbound queue as server messages; a later `update()` on the host thread
drains it and fires exactly the `on_error("Connection refused")` event;
and `connect()` itself still returns `True` rather than raising (the
worker catches `ConnectionRefusedError`). -/
theorem c9_refusal_surfaced (c : ClientState) (hcb : c.has_on_error = true)
    (hq : c.queue = []) :
    (connectRefused c).queue = [refusedErrorMsg] ∧
    (clientUpdate (connectRefused c)).2 = [HostEvent.errorEvt "Connection refused"] ∧
    (clientUpdate (connectRefused c)).1.queue = [] ∧
    (∀ name, (clientConnect c name).1 = true) := by
  refine ⟨?_, ?_, ?_, fun name => rfl⟩ <;>
    simp [connectRefused, clientUpdate, clientHandleMessage, refusedErrorMsg, hcb, hq]

theorem c9_refusal_surfaced_witness :
    (connectRefused c9withCallback).queue = [refusedErrorMsg] ∧
    (clientUpdate (connectRefused c9withCallback)).2
        = [HostEvent.errorEvt "Connection refused"] ∧
    (clientUpdate (connectRefused c9withCallback)).1.queue = [] ∧
    (clientConnect c9withCallback "Alice").1 = true := by
  have h := c9_refusal_surfaced c9withCallback rfl rfl
  exact ⟨h.1, h.2.1, h.2.2.1, h.2.2.2 "Alice"⟩

/-! ### `_leave_room` acts only on its own room key -/

theorem leaveRoom_other_room (s : ServerState) (cid rid ridO : String) (h : ridO ≠ rid) :
    alookup ridO (leaveRoom s cid rid).state.rooms = alookup ridO s.rooms := by
  cases hr : alookup rid s.rooms with
  | none => rw [leaveRoom_not_found s cid rid hr]
  | some room =>
    cases hrem : room.players.filter (fun p => p ≠ cid) with
    | nil =>
      rw [leaveRoom_empty s cid rid room hr hrem]
      dsimp only
      rw [alookup_adel_ne _ _ _ h, alookup_aset_ne _ _ _ _ h]
    | cons q rest =>
      by_cases hh : room.host_id = cid
      · rw [leaveRoom_host s cid rid room q rest hr hrem hh]
        dsimp only
        rw [alookup_aset_ne _ _ _ _ h]
      · rw [leaveRoom_nothost s cid rid room q rest hr hrem hh]
        dsimp only
        rw [alookup_aset_ne _ _ _ _ h]

theorem leaveRoom_no_member_left (s : ServerState) (cid rid : String) (roomX : RoomInfo)
    (hl : alookup rid (leaveRoom s cid rid).state.rooms = some roomX) :
    cid ∉ roomX.players := by
  cases hr : alookup rid s.rooms with
  | none =>
    rw [leaveRoom_not_found s cid rid hr] at hl
    dsimp only at hl
    rw [hr] at hl
    cases hl
  | some room =>
    cases hrem : room.players.filter (fun p => p ≠ cid) with
    | nil =>
      rw [leaveRoom_empty s cid rid room hr hrem] at hl
      dsimp only at hl
      rw [alookup_adel_self] at hl
      cases hl
    | cons q rest =>
      have hnotin : cid ∉ q :: rest := by
        rw [← hrem]
        intro hcontra
        have hdec := (List.mem_filter.mp hcontra).2
        simp at hdec
      by_cases hh : room.host_id = cid
      · rw [leaveRoom_host s cid rid room q rest hr hrem hh] at hl
        dsimp only at hl
        rw [alookup_aset_self] at hl
        injection hl with hl
        subst hl
        exact hnotin
      · rw [leaveRoom_nothost s cid rid room q rest hr hrem hh] at hl
        dsimp only at hl
        rw [alookup_aset_self] at hl
        injection hl with hl
        subst hl
        exact hnotin

theorem disconnectClient_rooms (s : ServerState) (cid rid : String)
    (hc : alookup cid s.clients = some (some rid)) :
    (disconnectClient s cid).state.rooms = (leaveRoom s cid rid).state.rooms := by
  unfold disconnectClient
  rw [hc]

/-- Claim C10: a client already pointing at room R can join a different open,
non-full, non-started room S; its id is appended to S's `players` while the
stale entry in R remains, and the session pointer is overwritten to S — so
a later disconnect removes the client from S only and R keeps the stale
member. -/
theorem c10_dual_room_membership (s : ServerState) (cid ridR ridS : String)
    (roomR roomS : RoomInfo) (pi0 : PlayerInfo)
    (hc : alookup cid s.clients = some (some ridR))
    (hR : alookup ridR s.rooms = some roomR)
    (hmem : cid ∈ roomR.players)
    (hS : alookup ridS s.rooms = some roomS)
    (hne : ridS ≠ "") (hdiff : ridR ≠ ridS)
    (hfull : roomS.isFull = false) (hstart : roomS.is_started = false)
    (hp : alookup cid s.pinfos = some pi0) :
    alookup ridS (handleJoinRoom s cid { room_id := some ridS }).state.rooms
        = some { roomS with players := roomS.players ++ [cid] } ∧
    alookup ridR (handleJoinRoom s cid { room_id := some ridS }).state.rooms
        = some roomR ∧
    cid ∈ roomR.players ∧
    alookup cid (handleJoinRoom s cid { room_id := some ridS }).state.clients
        = some (some ridS) ∧
    alookup ridR (disconnectClient
        (handleJoinRoom s cid { room_id := some ridS }).state cid).state.rooms
        = some roomR ∧
    (∀ roomS2, alookup ridS (disconnectClient
          (handleJoinRoom s cid { room_id := some ridS }).state cid).state.rooms
          = some roomS2 →
        cid ∉ roomS2.players) := by
  have hj := handleJoinRoom_ok s cid { room_id := some ridS } ridS roomS (some ridR) pi0
    rfl hne hS hfull hstart hc hp
  rw [hj]
  dsimp only
  have hcl : alookup cid (aset cid (some ridS) s.clients) = some (some ridS) :=
    alookup_aset_self _ _ _
  refine ⟨alookup_aset_self _ _ _, ?_, hmem, hcl, ?_, ?_⟩
  · rw [alookup_aset_ne _ _ _ _ hdiff]
    exact hR
  · rw [disconnectClient_rooms _ cid ridS hcl, leaveRoom_other_room _ cid ridS ridR hdiff]
    dsimp only
    rw [alookup_aset_ne _ _ _ _ hdiff]
    exact hR
  · intro roomS2 h2
    rw [disconnectClient_rooms _ cid ridS hcl] at h2
    exact leaveRoom_no_member_left _ cid ridS roomS2 h2

theorem c10_dual_room_membership_witness :
    alookup "r2" (handleJoinRoom trTwoRooms "A" { room_id := some "r2" }).state.rooms
        = some { room_id := "r2", room_name := "Room r2", host_id := "B",
                 players := ["B", "A"], max_players := 2, game_type := "8ball",
                 is_started := false } ∧
    alookup "r1" (disconnectClient
        (handleJoinRoom trTwoRooms "A" { room_id := some "r2" }).state "A").state.rooms
        = some roomA := by
  have h := c10_dual_room_membership trTwoRooms "A" "r1" "r2" roomA roomS10 piA10
    rfl rfl (by decide) rfl (by decide) (by decide) (by decide) (by decide) rfl
  exact ⟨h.1, h.2.2.2.2.1⟩

end Pooltool
